import Mathlib

/-!
Shallow embedding of the low-rank pruning core of `tensorflow-low-rank`
(`src/lowrank/pruners/__init__.py` and `src/lowrank/pruners/alignment_pruner.py`),
together with the pieces of the package those files use that are outside the
given sources (`LowRankLayer` from `lowrank/low_rank_layer.py`, and
`AbstractPrunerBase` / `create_mask` from the pruners package); those pieces are
modelled from the specification and are marked `Modelled from the spec:` in their
doc comments.

Conventions of the embedding:
* Python floats that take part in exact comparisons (the sparsity fraction) are
  modelled as rationals `ℚ`; floating-point rounding itself is not modelled.
* Factor-weight storage, tensor elements, forward-pass outputs and scores are
  opaque type parameters `W`, `V`, `O`, `S`: the pruning core never computes with
  them, it only moves them around, so every theorem is proved for all choices.
* Python exceptions (`ValueError`, `AssertionError`) are `Except`/`Option String`
  results; a raised exception leaves the in-place mutations done so far in
  effect, so stateful operations return the final (possibly partially mutated)
  state next to the error.
-/

namespace LowRank

/-- Numeric dtype tag of a tensor; the alignment scorer casts its probe input to
NumPy `float64`. -/
inductive DType where
  | float32
  | float64
  deriving DecidableEq

/-- A tensor as the pruning core observes it: its shape, its flat element data and
its dtype tag.  Element type `V` is opaque (the core never computes with
elements). -/
structure Tensor (V : Type) where
  shape : List Nat
  data : List V
  dtype : DType
  deriving DecidableEq

/-- Modelled from the spec: the state of one low-rank layer, the collaborator
contract consumed by the pruners (`lowrank/low_rank_layer.py` is not among the
given sources).  `max_rank` is fixed at construction, `rank_capacity` is the
current number of live components (`none` = unset, meaning "use max_rank"),
`mask` is the boolean component mask, and `factors` is the factor-weight storage,
one entry per component slot, with opaque entries of type `W`. -/
structure LowRankLayer (W : Type) where
  max_rank : Nat
  rank_capacity : Option Nat
  mask : List Bool
  factors : List W
  deriving DecidableEq

/-- Modelled from the spec: `LowRankLayer.set_rank_capacity` sets the current
number of live components; the spec's collaborator contract gives it no other
effect. -/
def set_rank_capacity {W : Type} (l : LowRankLayer W) (n : Nat) : LowRankLayer W :=
  { l with rank_capacity := some n }

/-- Modelled from the spec: `LowRankLayer.set_mask` stores the boolean component
mask on the layer. -/
def set_mask {W : Type} (l : LowRankLayer W) (m : List Bool) : LowRankLayer W :=
  { l with mask := m }

/-- Modelled from the spec: `LowRankLayer.squeeze_rank_capacity` drops the
False-masked components from storage and resets capacity and mask accordingly:
the surviving factor entries are kept in order, the new capacity is the number of
True mask entries, and the mask becomes all-True of the new length. -/
def squeeze_rank_capacity {W : Type} (l : LowRankLayer W) : LowRankLayer W :=
  let newCap := l.mask.count true
  { l with
    rank_capacity := some newCap,
    factors := (l.factors.zip l.mask).filterMap (fun p => if p.2 then some p.1 else none),
    mask := List.replicate newCap true }

/-- A model layer: either a low-rank layer (an instance of `LowRankLayer`) or a
regular Keras layer, opaque to the pruning core apart from an identifying
payload. -/
inductive Layer (W : Type) where
  | lowRank : LowRankLayer W → Layer W
  | regular : Nat → Layer W
  deriving DecidableEq

/-- The Keras `models.Sequential` state as the pruning core observes it: the
ordered layer list, the compile cache that `_reset_compile_cache` invalidates,
and an opaque payload standing for every other model attribute. -/
structure Model (W : Type) where
  layers : List (Layer W)
  compileCacheValid : Bool
  otherAttrs : Nat
  deriving DecidableEq

/-- `list(filter(lambda x: isinstance(x, LowRankLayer), self.model.layers))` on a
layer list: the low-rank layers, in model order. -/
def lrLayersOf {W : Type} (ls : List (Layer W)) : List (LowRankLayer W) :=
  ls.filterMap (fun l => match l with | .lowRank s => some s | .regular _ => none)

/-- The low-rank layers of a model, in model order (the `low_rank_layers`
attribute computed by `Pruner.__init__`; the attribute holds references into
`model.layers`, which the embedding renders as this derived view). -/
def lowRankLayers {W : Type} (m : Model W) : List (LowRankLayer W) :=
  lrLayersOf m.layers

/-- The `PruningScope` enum: GLOBAL scores all ranks from all layers together,
LOCAL treats each layer independently. -/
inductive PruningScope where
  | GLOBAL
  | LOCAL
  deriving DecidableEq

/-- The state a successfully constructed `Pruner` holds: the model reference, the
scope, the validated sparsity, the optional `(x, y)` data pair and the optional
loss (opaque payload). -/
structure Pruner (W V : Type) where
  model : Model W
  scope : PruningScope
  sparsity : ℚ
  data : Option (Tensor V × Tensor V)
  loss : Option Nat
  deriving DecidableEq

/-- `Pruner.__init__`: raises `ValueError("Sparsity must be in the range [0, 1]")`
when `sparsity < 0 or sparsity > 1`; otherwise the constructed object holds the
model, scope, sparsity, data and loss (and the derived `low_rank_layers` list,
see `lowRankLayers`).  A raised constructor means no object is produced. -/
def Pruner.init {W V : Type} (model : Model W) (scope : PruningScope) (sparsity : ℚ)
    (data : Option (Tensor V × Tensor V)) (loss : Option Nat) :
    Except String (Pruner W V) :=
  if sparsity < 0 ∨ sparsity > 1 then
    .error "Sparsity must be in the range [0, 1]"
  else
    .ok { model := model, scope := scope, sparsity := sparsity, data := data, loss := loss }

/-- The capacity-initialization pass at the top of `Pruner.prune`: a low-rank
layer with `rank_capacity is None` gets `set_rank_capacity(max_rank)`, every
other layer is untouched. -/
def initLayer {W : Type} (l : Layer W) : Layer W :=
  match l with
  | .lowRank s =>
      match s.rank_capacity with
      | none => .lowRank (set_rank_capacity s s.max_rank)
      | some _ => .lowRank s
  | .regular d => .regular d

/-- The model state after `prune`'s capacity-initialization loop. -/
def initModel {W : Type} (m : Model W) : Model W :=
  { m with layers := m.layers.map initLayer }

/-- The mask-application loop of `Pruner.prune`:
`for mask, layer in zip(masks, self.low_rank_layers)` — assert that the layer's
`rank_capacity` equals the mask length, then `set_mask` and
`squeeze_rank_capacity`.  Returns the updated layer list together with the error
of the first failing assert; every pair before the failure is already applied
(Python's raised assert leaves the earlier in-place mutations in effect) and the
failing layer and everything after it are untouched. -/
def applyMasks {W : Type} : List (Layer W) → List (List Bool) → List (Layer W) × Option String
  | ls, [] => (ls, none)
  | [], _ :: _ => ([], none)
  | .regular d :: ls, ms =>
      let r := applyMasks ls ms
      (.regular d :: r.1, r.2)
  | .lowRank s :: ls, mk :: ms =>
      if s.rank_capacity = some mk.length then
        let r := applyMasks ls ms
        (.lowRank (squeeze_rank_capacity (set_mask s mk)) :: r.1, r.2)
      else
        (.lowRank s :: ls, some "Computed mask should be the same length as rank capacity")

/-- `Pruner.prune`, parameterized by the subclass's `compute_masks` (abstract on
the base class; the alignment subclass restores every temporary mask mutation it
makes, so `compute_masks` is modelled as a function of the current model state).
Steps: initialize unset capacities to `max_rank`; call `compute_masks`; raise
`ValueError` if the result count differs from the low-rank layer count; apply
each mask with the per-pair length assert; on full success reset the compile
cache.  The returned pair is the final model state (partially mutated when an
assert aborted the loop) and the error, `none` on success. -/
def prune {W : Type} (computeMasks : Model W → List (List Bool)) (m : Model W) :
    Model W × Option String :=
  let m1 := initModel m
  let masks := computeMasks m1
  if masks.length ≠ (lowRankLayers m1).length then
    (m1, some "Computed mask does not match length of model layers")
  else
    let r := applyMasks m1.layers masks
    match r.2 with
    | some e => ({ m1 with layers := r.1 }, some e)
    | none => ({ m1 with layers := r.1, compileCacheValid := false }, none)

/-- Modelled from the spec: `create_mask` (shipped by the pruners package version
that also defines `AbstractPrunerBase`; not among the given sources).  With
`inverted = false` it builds the mask over `cap` components that is active
(True) everywhere except at the listed disabled indices — the all-active
baseline for an empty list, and "disable only component i" for `[i]`.  The spec
fixes the inverted form only for an empty index list ("inverted-empty semantics:
all components active"), the only way the sources call it, so the inverted form
is the all-active default mask. -/
def create_mask (cap : Nat) (indices : List Nat) (inverted : Bool) : List Bool :=
  if inverted then List.replicate cap true
  else (List.range cap).map (fun j => decide (j ∉ indices))

/-- Helper for `set_mask_on_layer`: set the given mask on the k-th low-rank layer
occurring in a layer list (k counts low-rank layers only, in model order). -/
def setLRMaskAux {W : Type} (mask : List Bool) : Nat → List (Layer W) → List (Layer W)
  | _, [] => []
  | k, .regular d :: ls => .regular d :: setLRMaskAux mask k ls
  | 0, .lowRank s :: ls => .lowRank (set_mask s mask) :: ls
  | k + 1, .lowRank s :: ls => .lowRank s :: setLRMaskAux mask k ls

/-- Modelled from the spec: `set_mask_on_layer` of `AbstractPrunerBase` (not among
the given sources) sets the given mask on one low-rank layer of the model.  The
sources address the layer by object reference; the embedding addresses it by its
position `k` among the low-rank layers. -/
def setLRMask {W : Type} (m : Model W) (k : Nat) (mask : List Bool) : Model W :=
  { m with layers := setLRMaskAux mask k m.layers }

/-- The `rank_capacity` read off the k-th low-rank layer of the model.  An unset
capacity is rendered as 0; inside `compute_scores` capacities are always set,
because the enclosing `prune` initializes them before calling it. -/
def lrCapacity {W : Type} (m : Model W) (k : Nat) : Nat :=
  ((lowRankLayers m)[k]?.bind (fun s => s.rank_capacity)).getD 0

/-- `tf.convert_to_tensor([tf.ones(self.data_x.shape[1:])], dtype=float64)`: the
fixed synthetic probe input — a single example shaped like one reference example
(leading batch dimension 1), every element the multiplicative identity, tagged
`float64`. -/
def allOnesInput {V V' : Type} [One V] (xs : Tensor V') : Tensor V :=
  { shape := 1 :: xs.shape.drop 1,
    data := List.replicate (xs.shape.drop 1).prod 1,
    dtype := DType.float64 }

/-- One iteration of the inner `for i in range(layer.rank_capacity)` loop of
`AlignmentPruner.compute_scores`: set `create_mask(rank_capacity, [i])` on the
layer (disable only component `i`), run the forward pass on the probe, and
append `norm (baseline - ablated)` to the layer's score list. -/
def ablationStep {W V O S : Type} [Sub O]
    (call : Model W → Tensor V → O) (norm : O → S) (probe : Tensor V) (baseline : O)
    (k cap : Nat) (acc : List S × Model W) (i : Nat) : List S × Model W :=
  let st' := setLRMask acc.2 k (create_mask cap [i] false)
  (acc.1 ++ [norm (baseline - call st' probe)], st')

/-- The body of the outer `for layer_ind, layer in enumerate(self.layers_to_prune)`
loop of `AlignmentPruner.compute_scores`, for the layer at low-rank position `k`:
set the all-active baseline mask `create_mask(rank_capacity, [])`, run the
forward pass on the all-ones probe for the baseline output, then run
`ablationStep` for each component index, and finally restore the default mask
`create_mask(rank_capacity, [], inverted=True)`.  The external collaborators are
the forward pass `call` (which observes the model's current mask state) and the
tensor norm `norm` (`tf.norm`, the Euclidean norm).  Returns the layer's score
list and the model state after the sweep. -/
def scoreLayer {W V O S : Type} [One V] [Sub O]
    (call : Model W → Tensor V → O) (norm : O → S)
    (xs : Tensor V) (st : Model W) (k : Nat) : List S × Model W :=
  let cap := lrCapacity st k
  let st1 := setLRMask st k (create_mask cap [] false)
  let probe : Tensor V := allOnesInput xs
  let baseline := call st1 probe
  let inner := (List.range cap).foldl (ablationStep call norm probe baseline k cap) ([], st1)
  (inner.1, setLRMask inner.2 k (create_mask cap [] true))

/-- One iteration of the outer layer loop of `AlignmentPruner.compute_scores`:
run the sweep for the layer at low-rank position `k` on the current model state
and append its score list. -/
def sweepStep {W V O S : Type} [One V] [Sub O]
    (call : Model W → Tensor V → O) (norm : O → S) (xs : Tensor V)
    (acc : List (List S) × Model W) (k : Nat) : List (List S) × Model W :=
  let r := scoreLayer call norm xs acc.2 k
  (acc.1 ++ [r.1], r.2)

/-- The full sweep of `AlignmentPruner.compute_scores` once the data assert has
passed: score every low-rank layer in model order, threading the model state
(its temporary mask mutations) from one layer's sweep to the next, collecting
one score list per layer. -/
def sweepScores {W V O S : Type} [One V] [Sub O]
    (call : Model W → Tensor V → O) (norm : O → S)
    (xs : Tensor V) (st : Model W) : List (List S) × Model W :=
  (List.range (lowRankLayers st).length).foldl (sweepStep call norm xs) ([], st)

/-- `AlignmentPruner.compute_scores`: first
`assert self.data_x is not None, "Data x is none, cannot infer input shape"`,
raised before any layer is touched; then the per-layer scoring sweep.  Returns
the scores (or the assert's error) together with the final model state. -/
def compute_scores {W V O S : Type} [One V] [Sub O]
    (call : Model W → Tensor V → O) (norm : O → S)
    (data_x : Option (Tensor V)) (st : Model W) :
    Except String (List (List S)) × Model W :=
  match data_x with
  | none => (.error "Data x is none, cannot infer input shape", st)
  | some xs => (.ok (sweepScores call norm xs st).1, (sweepScores call norm xs st).2)

/-- Modelled from the spec: LOCAL-scope mask selection (the scope-dependent
`compute_masks` of `AbstractPrunerBase` is not among the given sources) — within
one layer, rank the components by score ascending with the stable tie-break by
original index, mark the lowest `floor(sparsity * rank_capacity)` as False
(pruned) and the remainder True.  The score type `S` is any linear order. -/
def localMask {S : Type} [LinearOrder S] (sparsity : ℚ) (scores : List S) : List Bool :=
  let n := scores.length
  let k := ⌊sparsity * n⌋₊
  let sorted := List.insertionSort
    (fun a b => a.1 < b.1 ∨ (a.1 = b.1 ∧ a.2 ≤ b.2)) (scores.zip (List.range n))
  let dropped := (sorted.take k).map Prod.snd
  (List.range n).map (fun j => decide (j ∉ dropped))

/-- Modelled from the spec: the LOCAL-scope `compute_masks` pipeline — obtain one
score sequence per target layer from a scoring strategy and threshold each layer
independently with `localMask`. -/
def localComputeMasks {W S : Type} [LinearOrder S]
    (scorer : Model W → List (List S)) (sparsity : ℚ) (m : Model W) : List (List Bool) :=
  (scorer m).map (localMask sparsity)

/-- Replace the element at position `k` of a list by its image under `f`
(identity when `k` is out of range).  Used to describe what `setLRMask` does to
the derived low-rank layer list. -/
def modifyAt {α : Type} (f : α → α) : Nat → List α → List α
  | _, [] => []
  | 0, x :: xs => f x :: xs
  | n + 1, x :: xs => x :: modifyAt f n xs

/-- The model state the alignment sweep is in when it reaches the low-rank layer
at position `k`: the original state with the masks of the layers before `k`
reset to the all-active baseline (each earlier sweep ends by restoring exactly
that mask). -/
def restoredUpTo {W : Type} (st : Model W) (k : Nat) : Model W :=
  (List.range k).foldl (fun s j => setLRMask s j (create_mask (lrCapacity st j) [] false)) st

/-- Element `i` of element `k` of a nested list, as an `Option`. -/
def nth2 {α : Type} (l : List (List α)) (k i : Nat) : Option α :=
  (l[k]?.getD [])[i]?

/-- The per-pair capacity assert of `prune`'s application loop, as a relation
between a computed mask and its layer. -/
def capOk {W : Type} (mk : List Bool) (s : LowRankLayer W) : Prop :=
  s.rank_capacity = some mk.length

/-- One layer's capacity initialization, `set_rank_capacity(max_rank)` exactly
when the capacity is unset. -/
def initCapacity {W : Type} (s : LowRankLayer W) : LowRankLayer W :=
  match s.rank_capacity with
  | none => set_rank_capacity s s.max_rank
  | some _ => s

/-- A two-low-rank-layer example model used to instantiate the theorems at
concrete inputs: one regular layer, one low-rank layer with its capacity set and
one with its capacity still unset. -/
def wLayerA : LowRankLayer Int :=
  { max_rank := 2, rank_capacity := some 2, mask := [true, true], factors := [1, 2] }

/-- Companion example layer with unset rank capacity. -/
def wLayerB : LowRankLayer Int :=
  { max_rank := 3, rank_capacity := none, mask := [], factors := [5, 6, 7] }

/-- Concrete example model holding `wLayerA` and `wLayerB`. -/
def wModel : Model Int :=
  { layers := [.regular 9, .lowRank wLayerA, .lowRank wLayerB],
    compileCacheValid := true, otherAttrs := 4 }

/-- Example `compute_masks` whose masks match both layers' capacities. -/
def wMasksOk : Model Int → List (List Bool) := fun _ => [[true, false], [false, true, true]]

/-- Example `compute_masks` agreeing with `wMasksOk` on every reachable state but
written differently (used to instantiate extensionality statements). -/
def wMasksOkAlt : Model Int → List (List Bool) := fun m =>
  if m.otherAttrs = 99 then [] else [[true, false], [false, true, true]]

/-- Example `compute_masks` returning a second mask of the wrong length. -/
def wMasksBadLen : Model Int → List (List Bool) := fun _ => [[true, false], [true]]

/-- Example `compute_masks` returning too few masks. -/
def wMasksBadCount : Model Int → List (List Bool) := fun _ => [[true, false]]

/-- Example forward pass: sums the number of live mask entries over the low-rank
layers, so it observes exactly the model's current mask state. -/
def wCall : Model Int → Tensor Int → Int := fun m _ =>
  (lowRankLayers m).foldl (fun a l => a + (l.mask.count true : Int)) 0

/-- Example reference batch. -/
def wTensor1 : Tensor Int :=
  { shape := [10, 2], data := List.replicate 20 3, dtype := .float32 }

/-- Example reference batch with the same shape as `wTensor1` but different
element values. -/
def wTensor2 : Tensor Int :=
  { shape := [10, 2], data := List.replicate 20 7, dtype := .float32 }

/-- Example per-layer scorer: component index as score, one score per component
of the layer's current capacity. -/
def wScorer : Model Int → List (List Int) := fun m =>
  (lowRankLayers m).map (fun l => (List.range (l.rank_capacity.getD 0)).map (fun i => (i : Int)))

section Lemmas

variable {W V O S : Type}

lemma set_mask_rank_capacity (l : LowRankLayer W) (mk : List Bool) :
    (set_mask l mk).rank_capacity = l.rank_capacity := rfl

lemma squeeze_set_mask_rank_capacity (l : LowRankLayer W) (mk : List Bool) :
    (squeeze_rank_capacity (set_mask l mk)).rank_capacity = some (mk.count true) := rfl

lemma create_mask_empty_inverted (cap : Nat) :
    create_mask cap [] true = create_mask cap [] false := by
  simp [create_mask, List.map_const', List.eq_replicate_iff]

lemma modifyAt_length {α : Type} (f : α → α) (k : Nat) (l : List α) :
    (modifyAt f k l).length = l.length := by
  induction l generalizing k with
  | nil => cases k <;> rfl
  | cons x xs ih => cases k <;> simp [modifyAt, ih]

lemma modifyAt_getElem? {α : Type} (f : α → α) (k j : Nat) (l : List α) :
    (modifyAt f k l)[j]? = if j = k then l[j]?.map f else l[j]? := by
  induction l generalizing k j with
  | nil => simp [modifyAt]
  | cons x xs ih =>
      cases k with
      | zero => cases j <;> simp [modifyAt]
      | succ k =>
          cases j with
          | zero => simp [modifyAt]
          | succ j => simpa [modifyAt] using ih k j

lemma lrLayersOf_setLRMaskAux (mask : List Bool) (k : Nat) (ls : List (Layer W)) :
    lrLayersOf (setLRMaskAux mask k ls) =
      modifyAt (fun s => set_mask s mask) k (lrLayersOf ls) := by
  induction ls generalizing k with
  | nil => cases k <;> rfl
  | cons x xs ih =>
      cases x with
      | regular d => simpa [setLRMaskAux, lrLayersOf] using ih k
      | lowRank s =>
          cases k with
          | zero => simp [setLRMaskAux, lrLayersOf, modifyAt]
          | succ k => simpa [setLRMaskAux, lrLayersOf, modifyAt] using ih k

lemma lowRankLayers_setLRMask (m : Model W) (k : Nat) (mask : List Bool) :
    lowRankLayers (setLRMask m k mask) =
      modifyAt (fun s => set_mask s mask) k (lowRankLayers m) :=
  lrLayersOf_setLRMaskAux mask k m.layers

lemma numLR_setLRMask (m : Model W) (k : Nat) (mask : List Bool) :
    (lowRankLayers (setLRMask m k mask)).length = (lowRankLayers m).length := by
  rw [lowRankLayers_setLRMask, modifyAt_length]

lemma lrCapacity_setLRMask (m : Model W) (j k : Nat) (mask : List Bool) :
    lrCapacity (setLRMask m j mask) k = lrCapacity m k := by
  unfold lrCapacity
  rw [lowRankLayers_setLRMask, modifyAt_getElem?]
  by_cases h : k = j
  · subst h
    cases (lowRankLayers m)[k]? <;> simp [set_mask_rank_capacity]
  · simp [h]

lemma setLRMaskAux_collapse (a b : List Bool) (k : Nat) (ls : List (Layer W)) :
    setLRMaskAux b k (setLRMaskAux a k ls) = setLRMaskAux b k ls := by
  induction ls generalizing k with
  | nil => cases k <;> rfl
  | cons x xs ih =>
      cases x with
      | regular d => simp [setLRMaskAux, ih]
      | lowRank s =>
          cases k with
          | zero => simp [setLRMaskAux, set_mask]
          | succ k => simp [setLRMaskAux, ih]

lemma setLRMask_collapse (m : Model W) (k : Nat) (a b : List Bool) :
    setLRMask (setLRMask m k a) k b = setLRMask m k b := by
  simp [setLRMask, setLRMaskAux_collapse]

lemma setLRMask_otherAttrs (m : Model W) (k : Nat) (mask : List Bool) :
    (setLRMask m k mask).otherAttrs = m.otherAttrs := rfl

@[simp] lemma lrLayersOf_nil : lrLayersOf ([] : List (Layer W)) = [] := rfl

@[simp] lemma lrLayersOf_cons_regular (d : Nat) (ls : List (Layer W)) :
    lrLayersOf (.regular d :: ls) = lrLayersOf ls := rfl

@[simp] lemma lrLayersOf_cons_lowRank (s : LowRankLayer W) (ls : List (Layer W)) :
    lrLayersOf (.lowRank s :: ls) = s :: lrLayersOf ls := rfl

lemma applyMasks_snd_none_iff (ls : List (Layer W)) :
    ∀ ms : List (List Bool), ms.length = (lrLayersOf ls).length →
      ((applyMasks ls ms).2 = none ↔ List.Forall₂ capOk ms (lrLayersOf ls)) := by
  induction ls with
  | nil =>
      intro ms h
      have hms : ms = [] := List.length_eq_zero.mp (by simpa using h)
      subst hms
      simp [applyMasks]
  | cons x xs ih =>
      intro ms h
      cases x with
      | regular d =>
          cases ms with
          | nil =>
              have : lrLayersOf xs = [] := List.length_eq_zero.mp (by simpa using h.symm)
              simp [applyMasks, this]
          | cons mk ms' => simpa [applyMasks] using ih (mk :: ms') (by simpa using h)
      | lowRank s =>
          cases ms with
          | nil => simp at h
          | cons mk ms' =>
              by_cases hc : s.rank_capacity = some mk.length
              · simpa [applyMasks, hc, List.forall₂_cons, capOk] using
                  ih ms' (by simpa using h)
              · simp [applyMasks, hc, List.forall₂_cons, capOk]

lemma applyMasks_fst_length (ls : List (Layer W)) :
    ∀ ms : List (List Bool), ((applyMasks ls ms).1).length = ls.length := by
  induction ls with
  | nil => intro ms; cases ms <;> simp [applyMasks]
  | cons x xs ih =>
      intro ms
      cases ms with
      | nil => simp [applyMasks]
      | cons mk ms' =>
          cases x with
          | regular d => simp [applyMasks, ih]
          | lowRank s =>
              by_cases hc : s.rank_capacity = some mk.length <;>
                simp [applyMasks, hc, ih]

lemma applyMasks_regular_at (ls : List (Layer W)) :
    ∀ (ms : List (List Bool)) (i d : Nat), ls[i]? = some (.regular d) →
      ((applyMasks ls ms).1)[i]? = some (.regular d) := by
  induction ls with
  | nil => intro ms i d h; simp at h
  | cons x xs ih =>
      intro ms i d h
      cases ms with
      | nil => simpa [applyMasks] using h
      | cons mk ms' =>
          cases x with
          | regular e =>
              cases i with
              | zero => simpa [applyMasks] using h
              | succ i => simpa [applyMasks] using ih (mk :: ms') i d (by simpa using h)
          | lowRank s =>
              by_cases hc : s.rank_capacity = some mk.length
              · cases i with
                | zero => simp at h
                | succ i => simpa [applyMasks, hc] using ih ms' i d (by simpa using h)
              · simpa [applyMasks, hc] using h

lemma applyMasks_lowRank_at (ls : List (Layer W)) :
    ∀ (ms : List (List Bool)) (i : Nat) (s : LowRankLayer W), ls[i]? = some (.lowRank s) →
      ∃ s', ((applyMasks ls ms).1)[i]? = some (.lowRank s') := by
  induction ls with
  | nil => intro ms i s h; simp at h
  | cons x xs ih =>
      intro ms i s h
      cases ms with
      | nil => exact ⟨s, by simpa [applyMasks] using h⟩
      | cons mk ms' =>
          cases x with
          | regular e =>
              cases i with
              | zero => simp at h
              | succ i => simpa [applyMasks] using ih (mk :: ms') i s (by simpa using h)
          | lowRank t =>
              by_cases hc : t.rank_capacity = some mk.length
              · cases i with
                | zero => exact ⟨squeeze_rank_capacity (set_mask t mk), by simp [applyMasks, hc]⟩
                | succ i => simpa [applyMasks, hc] using ih ms' i s (by simpa using h)
              · exact ⟨s, by simpa [applyMasks, hc] using h⟩

lemma applyMasks_fst_of_forall₂ (ls : List (Layer W)) :
    ∀ ms : List (List Bool), List.Forall₂ capOk ms (lrLayersOf ls) →
      lrLayersOf (applyMasks ls ms).1 =
        (ms.zip (lrLayersOf ls)).map (fun p => squeeze_rank_capacity (set_mask p.2 p.1)) := by
  induction ls with
  | nil =>
      intro ms h
      have hms : ms = [] := List.length_eq_zero.mp (by simpa using h.length_eq)
      subst hms
      simp [applyMasks]
  | cons x xs ih =>
      intro ms h
      cases x with
      | regular d =>
          cases ms with
          | nil =>
              have hx : lrLayersOf xs = [] :=
                List.length_eq_zero.mp (by simpa using h.length_eq.symm)
              simp [applyMasks, hx]
          | cons mk ms' => simpa [applyMasks] using ih (mk :: ms') (by simpa using h)
      | lowRank s =>
          simp only [lrLayersOf_cons_lowRank] at h
          cases h with
          | cons hrel htail =>
              rename_i mk ms'
              have hc : s.rank_capacity = some mk.length := hrel
              simp [applyMasks, hc, List.zip_cons_cons, ih _ htail]

lemma applyMasks_fail (ls : List (Layer W)) :
    ∀ (ms1 ms2 : List (List Bool)) (mk : List Bool)
      (l1 l2 : List (LowRankLayer W)) (l : LowRankLayer W),
      lrLayersOf ls = l1 ++ l :: l2 →
      ms1.length = l1.length →
      List.Forall₂ capOk ms1 l1 →
      l.rank_capacity ≠ some mk.length →
      (applyMasks ls (ms1 ++ mk :: ms2)).2 =
          some "Computed mask should be the same length as rank capacity" ∧
      lrLayersOf (applyMasks ls (ms1 ++ mk :: ms2)).1 =
        (ms1.zip l1).map (fun p => squeeze_rank_capacity (set_mask p.2 p.1)) ++ l :: l2 := by
  induction ls with
  | nil =>
      intro ms1 ms2 mk l1 l2 l hls _ _ _
      exact absurd hls (by cases l1 <;> simp)
  | cons x xs ih =>
      intro ms1 ms2 mk l1 l2 l hls hlen hok hbad
      cases x with
      | regular d =>
          have h' := ih ms1 ms2 mk l1 l2 l (by simpa using hls) hlen hok hbad
          cases ms1 with
          | nil => exact ⟨by simpa [applyMasks] using h'.1, by simpa [applyMasks] using h'.2⟩
          | cons m1 ms1' =>
              exact ⟨by simpa [applyMasks] using h'.1, by simpa [applyMasks] using h'.2⟩
      | lowRank s =>
          cases l1 with
          | nil =>
              have hms1 : ms1 = [] := List.length_eq_zero.mp (by simpa using hlen)
              subst hms1
              have hs : s = l ∧ lrLayersOf xs = l2 := by
                constructor
                · exact (List.cons_eq_cons.mp (by simpa using hls)).1
                · exact (List.cons_eq_cons.mp (by simpa using hls)).2
              obtain ⟨hsl, hxs⟩ := hs
              subst hsl
              simp [applyMasks, hbad, hxs]
          | cons a l1' =>
              have hsa : s = a ∧ lrLayersOf xs = l1' ++ l :: l2 := by
                constructor
                · exact (List.cons_eq_cons.mp (by simpa using hls)).1
                · exact (List.cons_eq_cons.mp (by simpa using hls)).2
              obtain ⟨hsl, hxs⟩ := hsa
              subst hsl
              cases ms1 with
              | nil => simp at hlen
              | cons mk1 ms1' =>
                  have hrel : capOk mk1 s := by
                    cases hok with
                    | cons hr _ => exact hr
                  have htail : List.Forall₂ capOk ms1' l1' := by
                    cases hok with
                    | cons _ ht => exact ht
                  have hc : s.rank_capacity = some mk1.length := hrel
                  have := ih ms1' ms2 mk l1' l2 l hxs (by simpa using hlen) htail hbad
                  simp only [List.cons_append, applyMasks, hc, if_pos rfl]
                  exact ⟨this.1, by simpa [List.zip_cons_cons] using this.2⟩

lemma initLayer_lowRank (s : LowRankLayer W) :
    initLayer (.lowRank s) = .lowRank (initCapacity s) := by
  cases h : s.rank_capacity <;> simp [initLayer, initCapacity, h]

lemma lowRankLayers_initModel (m : Model W) :
    lowRankLayers (initModel m) = (lowRankLayers m).map initCapacity := by
  show lrLayersOf (m.layers.map initLayer) = (lrLayersOf m.layers).map initCapacity
  induction m.layers with
  | nil => rfl
  | cons x xs ih =>
      cases x with
      | regular d => simpa [initLayer] using ih
      | lowRank s => simpa [initLayer_lowRank] using ih

lemma initCapacity_eq (s : LowRankLayer W) :
    initCapacity s = { s with rank_capacity := some (s.rank_capacity.getD s.max_rank) } := by
  cases s with
  | mk mr rc mk' f => cases rc <;> simp [initCapacity, set_rank_capacity]

lemma initCapacity_max_rank (s : LowRankLayer W) :
    (initCapacity s).max_rank = s.max_rank := by
  cases h : s.rank_capacity <;> simp [initCapacity, h, set_rank_capacity]

/-- Applying a mask and squeezing every (capacity-initialized) layer never
touches `max_rank`: the only fields `set_rank_capacity`, `set_mask` and
`squeeze_rank_capacity` write are `rank_capacity`, `mask` and `factors`. -/
lemma maxRank_applyAll (ms : List (List Bool)) :
    ∀ ls : List (LowRankLayer W), ms.length = ls.length →
      List.Forall₂ (fun (lb la : LowRankLayer W) => la.max_rank = lb.max_rank) ls
        ((ms.zip (ls.map initCapacity)).map
          (fun p => squeeze_rank_capacity (set_mask p.2 p.1))) := by
  induction ms with
  | nil =>
      intro ls h
      have hls : ls = [] := List.length_eq_zero.mp h.symm
      subst hls
      exact .nil
  | cons mk ms ih =>
      intro ls h
      cases ls with
      | nil => simp at h
      | cons l ls' =>
          simp only [List.map_cons, List.zip_cons_cons]
          refine .cons ?_ (ih ls' (by simpa using h))
          show (initCapacity l).max_rank = l.max_rank
          exact initCapacity_max_rank l

lemma initModel_otherAttrs (m : Model W) : (initModel m).otherAttrs = m.otherAttrs := rfl

lemma initModel_compileCacheValid (m : Model W) :
    (initModel m).compileCacheValid = m.compileCacheValid := rfl

lemma restoredUpTo_zero (st : Model W) : restoredUpTo st 0 = st := rfl

lemma restoredUpTo_succ (st : Model W) (n : Nat) :
    restoredUpTo st (n + 1) =
      setLRMask (restoredUpTo st n) n (create_mask (lrCapacity st n) [] false) := by
  simp [restoredUpTo, List.range_succ]

lemma lrCapacity_restoredUpTo (st : Model W) (n j : Nat) :
    lrCapacity (restoredUpTo st n) j = lrCapacity st j := by
  induction n with
  | zero => rfl
  | succ n ih => rw [restoredUpTo_succ, lrCapacity_setLRMask, ih]

lemma numLR_restoredUpTo (st : Model W) (n : Nat) :
    (lowRankLayers (restoredUpTo st n)).length = (lowRankLayers st).length := by
  induction n with
  | zero => rfl
  | succ n ih => rw [restoredUpTo_succ, numLR_setLRMask, ih]

section AlignmentLemmas

variable [Sub O]
variable (call : Model W → Tensor V → O) (norm : O → S)

lemma ablationStep_eq (probe : Tensor V) (baseline : O) (k cap : Nat)
    (acc : List S × Model W) (i : Nat) :
    ablationStep call norm probe baseline k cap acc i =
      (acc.1 ++ [norm (baseline - call (setLRMask acc.2 k (create_mask cap [i] false)) probe)],
        setLRMask acc.2 k (create_mask cap [i] false)) := rfl

lemma ablationFold_inv (probe : Tensor V) (baseline : O) (k cap : Nat) (st : Model W) :
    ∀ (l : List Nat) (acc : List S × Model W),
      (∀ mk, setLRMask acc.2 k mk = setLRMask st k mk) →
      ∀ mk, setLRMask ((l.foldl (ablationStep call norm probe baseline k cap) acc).2) k mk =
        setLRMask st k mk := by
  intro l
  induction l with
  | nil => intro acc h; exact h
  | cons i l ih =>
      intro acc h
      rw [List.foldl_cons]
      apply ih
      intro mk
      rw [ablationStep_eq]
      show setLRMask (setLRMask acc.2 k (create_mask cap [i] false)) k mk = _
      rw [setLRMask_collapse]
      exact h mk

lemma ablationFold_fst (probe : Tensor V) (baseline : O) (k cap : Nat) (st : Model W) :
    ∀ (l : List Nat) (acc : List S × Model W),
      (∀ mk, setLRMask acc.2 k mk = setLRMask st k mk) →
      (l.foldl (ablationStep call norm probe baseline k cap) acc).1 =
        acc.1 ++ l.map (fun i =>
          norm (baseline - call (setLRMask st k (create_mask cap [i] false)) probe)) := by
  intro l
  induction l with
  | nil => intro acc h; simp
  | cons i l ih =>
      intro acc h
      rw [List.foldl_cons, ablationStep_eq, h]
      have hinv : ∀ mk,
          setLRMask (setLRMask st k (create_mask cap [i] false)) k mk = setLRMask st k mk := by
        intro mk
        rw [setLRMask_collapse]
      rw [ih _ hinv]
      simp

lemma scoreLayer_eq [One V] (xs : Tensor V) (st : Model W) (k : Nat) :
    scoreLayer call norm xs st k =
      ((List.range (lrCapacity st k)).map (fun i =>
          norm (call (setLRMask st k (create_mask (lrCapacity st k) [] false)) (allOnesInput xs)
            - call (setLRMask st k (create_mask (lrCapacity st k) [i] false)) (allOnesInput xs))),
        setLRMask st k (create_mask (lrCapacity st k) [] false)) := by
  unfold scoreLayer
  have hbase : ∀ mk,
      setLRMask (setLRMask st k (create_mask (lrCapacity st k) [] false)) k mk =
        setLRMask st k mk := by
    intro mk
    rw [setLRMask_collapse]
  simp only [Prod.mk.injEq]
  constructor
  · rw [ablationFold_fst call norm (allOnesInput xs)
        (call (setLRMask st k (create_mask (lrCapacity st k) [] false)) (allOnesInput xs))
        k (lrCapacity st k) st (List.range (lrCapacity st k)) _ hbase]
    simp
  · rw [ablationFold_inv call norm (allOnesInput xs)
        (call (setLRMask st k (create_mask (lrCapacity st k) [] false)) (allOnesInput xs))
        k (lrCapacity st k) st (List.range (lrCapacity st k)) _ hbase,
      create_mask_empty_inverted]

lemma scoreLayer_snd [One V] (xs : Tensor V) (st : Model W) (k : Nat) :
    (scoreLayer call norm xs st k).2 =
      setLRMask st k (create_mask (lrCapacity st k) [] false) := by
  rw [scoreLayer_eq]

lemma sweepFold [One V] (xs : Tensor V) (st : Model W) :
    ∀ n : Nat,
      (List.range n).foldl (sweepStep call norm xs) ([], st) =
        ((List.range n).map (fun k => (scoreLayer call norm xs (restoredUpTo st k) k).1),
          restoredUpTo st n) := by
  intro n
  induction n with
  | zero => rfl
  | succ n ih =>
      rw [List.range_succ, List.foldl_append, ih, List.map_append]
      show sweepStep call norm xs _ n = _
      rw [sweepStep]
      simp only [scoreLayer_snd, lrCapacity_restoredUpTo, ← restoredUpTo_succ]
      rfl

lemma sweepScores_eq [One V] (xs : Tensor V) (st : Model W) :
    sweepScores call norm xs st =
      ((List.range (lowRankLayers st).length).map
          (fun k => (scoreLayer call norm xs (restoredUpTo st k) k).1),
        restoredUpTo st (lowRankLayers st).length) := by
  rw [sweepScores, sweepFold]

end AlignmentLemmas

lemma localMask_length [LinearOrder S] (sp : ℚ) (sc : List S) :
    (localMask sp sc).length = sc.length := by
  simp [localMask]

lemma natFloor_mul_le (sp : ℚ) (n : Nat) (h1 : sp ≤ 1) : ⌊sp * n⌋₊ ≤ n := by
  have hmul : sp * (n : ℚ) ≤ (n : ℚ) := by nlinarith [@Nat.cast_nonneg ℚ _ n]
  calc ⌊sp * (n : ℚ)⌋₊ ≤ ⌊((n : ℚ))⌋₊ := Nat.floor_le_floor hmul
    _ = n := Nat.floor_natCast n

lemma countP_not_mem_add (d : List Nat) (l : List Nat) :
    List.countP (fun j => decide (j ∉ d)) l + List.countP (fun j => decide (j ∈ d)) l
      = l.length := by
  induction l with
  | nil => rfl
  | cons x xs ih =>
      by_cases hx : x ∈ d <;> simp [List.countP_cons, hx, ← ih] <;> omega

/-- The number of surviving (True) entries of a LOCAL-scope mask: the layer keeps
`rank_capacity − floor(sparsity * rank_capacity)` components. -/
lemma localMask_count [LinearOrder S] (sp : ℚ) (h1 : sp ≤ 1) (sc : List S) :
    (localMask sp sc).count true = sc.length - ⌊sp * sc.length⌋₊ := by
  classical
  set n := sc.length with hn
  set k := ⌊sp * (n : ℚ)⌋₊ with hkdef
  have hkn : k ≤ n := natFloor_mul_le sp n h1
  set r := fun (a b : S × Nat) => a.1 < b.1 ∨ (a.1 = b.1 ∧ a.2 ≤ b.2) with hr
  set sorted := List.insertionSort r (sc.zip (List.range n)) with hsorted
  set dropped := (sorted.take k).map Prod.snd with hdropped
  have hmask : localMask sp sc = (List.range n).map (fun j => decide (j ∉ dropped)) := rfl
  have hperm : sorted.Perm (sc.zip (List.range n)) := List.perm_insertionSort r _
  have hsnd : (sorted.map Prod.snd).Perm (List.range n) := by
    have h2 := hperm.map Prod.snd
    rwa [List.map_snd_zip sc (List.range n) (by simp [hn])] at h2
  have hnodup : (sorted.map Prod.snd).Nodup := hsnd.nodup_iff.mpr (List.nodup_range n)
  have hdtake : dropped = (sorted.map Prod.snd).take k := by
    rw [hdropped, List.map_take]
  have hdnodup : dropped.Nodup := by
    rw [hdtake]
    exact hnodup.sublist (List.take_sublist k _)
  have hdsub : ∀ x ∈ dropped, x ∈ List.range n := by
    intro x hx
    rw [hdtake] at hx
    exact hsnd.mem_iff.mp (List.mem_of_mem_take hx)
  have hsortedlen : (sorted.map Prod.snd).length = n := by
    rw [List.length_map, hperm.length_eq, List.length_zip, List.length_range, hn]
    exact Nat.min_self _
  have hdlen : dropped.length = k := by
    rw [hdtake, List.length_take, hsortedlen]
    omega
  have hcmem : List.countP (fun j => decide (j ∈ dropped)) (List.range n) = k := by
    rw [List.countP_eq_length_filter]
    have hfn : ((List.range n).filter (fun j => decide (j ∈ dropped))).Nodup :=
      List.Nodup.filter _ (List.nodup_range n)
    have hiff : ∀ a, a ∈ (List.range n).filter (fun j => decide (j ∈ dropped)) ↔ a ∈ dropped := by
      intro a
      simp only [List.mem_filter, decide_eq_true_eq]
      exact ⟨fun h => h.2, fun h => ⟨hdsub a h, h⟩⟩
    have hpm := (List.perm_ext_iff_of_nodup hfn hdnodup).mpr hiff
    rw [hpm.length_eq, hdlen]
  rw [hmask, List.count_eq_countP, List.countP_map]
  have hg : List.countP ((fun x => x == true) ∘ fun j => decide (j ∉ dropped)) (List.range n) =
      List.countP (fun j => decide (j ∉ dropped)) (List.range n) := by
    apply List.countP_congr
    intro x _
    simp [Function.comp]
  rw [hg]
  have hadd := countP_not_mem_add dropped (List.range n)
  rw [hcmem, List.length_range] at hadd
  omega

end Lemmas

/-- C2: constructing a Pruner with sparsity outside the closed interval `[0, 1]`
fails with the validation error and produces no Pruner object (no partial
state), and it succeeds exactly for `0 ≤ sparsity ≤ 1`; in particular sparsity
`0` and `1.0` succeed while `-0.1` and `1.1` fail. -/
theorem claim_C2 {W V : Type} (model : Model W) (scope : PruningScope)
    (data : Option (Tensor V × Tensor V)) (loss : Option Nat) :
    (∀ sp : ℚ, (Pruner.init model scope sp data loss).isOk = true ↔ 0 ≤ sp ∧ sp ≤ 1) ∧
    (Pruner.init model scope 0 data loss).isOk = true ∧
    (Pruner.init model scope 1 data loss).isOk = true ∧
    (Pruner.init model scope (-0.1) data loss).isOk = false ∧
    (Pruner.init model scope (1.1) data loss).isOk = false := by
  have hgen : ∀ sp : ℚ, (Pruner.init model scope sp data loss).isOk = true ↔ 0 ≤ sp ∧ sp ≤ 1 := by
    intro sp
    rw [Pruner.init]
    by_cases h : sp < 0 ∨ sp > 1
    · rw [if_pos h]
      constructor
      · intro hf
        exact absurd hf (by simp [Except.isOk, Except.toBool])
      · intro hc
        rcases h with h | h <;> linarith [hc.1, hc.2]
    · rw [if_neg h]
      push_neg at h
      exact ⟨fun _ => ⟨h.1, h.2⟩, fun _ => rfl⟩
  refine ⟨hgen, ?_, ?_, ?_, ?_⟩
  · exact (hgen 0).mpr (by norm_num)
  · exact (hgen 1).mpr (by norm_num)
  · have := (hgen (-0.1)).not
    simp only [Bool.not_eq_true] at this
    exact this.mpr (by norm_num)
  · have := (hgen (1.1)).not
    simp only [Bool.not_eq_true] at this
    exact this.mpr (by norm_num)

/-- C2 witness: a concrete in-range sparsity is accepted, via the equivalence. -/
theorem claim_C2_witness :
    (Pruner.init wModel PruningScope.LOCAL (1/2 : ℚ)
      (none : Option (Tensor Int × Tensor Int)) none).isOk = true :=
  ((claim_C2 wModel PruningScope.LOCAL
    (none : Option (Tensor Int × Tensor Int)) none).1 (1/2)).mpr (by norm_num)

/-- C6: invoking the alignment scorer without a reference input batch
(`data_x is None`) fails with the precondition assert, and the model state it
returns is exactly the input state — the failure happens before any layer's mask
is mutated. -/
theorem claim_C6 {W V O S : Type} [One V] [Sub O]
    (call : Model W → Tensor V → O) (norm : O → S) (st : Model W) :
    compute_scores call norm (none : Option (Tensor V)) st =
      (Except.error "Data x is none, cannot infer input shape", st) := rfl

/-- C8: for every scored layer, the baseline mask set before the sweep
(`create_mask(rank_capacity, [])`, all components active) equals the default
mask restored after it (`create_mask(rank_capacity, [], inverted=True)`,
inverted-empty semantics), and the model state after the layer's sweep equals
the pre-scoring baseline state, so later layers' forward passes see no leftover
ablations. -/
theorem claim_C8 {W V O S : Type} [One V] [Sub O]
    (call : Model W → Tensor V → O) (norm : O → S) (xs : Tensor V) (st : Model W) (k : Nat) :
    create_mask (lrCapacity st k) [] true = create_mask (lrCapacity st k) [] false ∧
    (scoreLayer call norm xs st k).2 =
      setLRMask st k (create_mask (lrCapacity st k) [] false) :=
  ⟨create_mask_empty_inverted _, scoreLayer_snd call norm xs st k⟩

/-- C10: two runs of the alignment scorer on the same model with reference
batches whose per-example shapes agree produce identical results (scores and
final state), whatever the batches' element values: the scorer reads the
reference data only to shape its fixed all-ones probe. -/
theorem claim_C10 {W V O S : Type} [One V] [Sub O]
    (call : Model W → Tensor V → O) (norm : O → S) (st : Model W) (xs1 xs2 : Tensor V)
    (h : xs1.shape.drop 1 = xs2.shape.drop 1) :
    compute_scores call norm (some xs1) st = compute_scores call norm (some xs2) st := by
  have hp : (allOnesInput xs1 : Tensor V) = allOnesInput xs2 := by
    simp [allOnesInput, h]
  have hsl : scoreLayer call norm xs1 = scoreLayer call norm xs2 := by
    funext st' k
    simp only [scoreLayer, hp]
  have hsw : sweepStep call norm xs1 = sweepStep call norm xs2 := by
    funext acc k
    simp only [sweepStep, hsl]
  simp only [compute_scores, sweepScores, hsw]

/-- C10 witness: two concrete equally-shaped batches with different element
values give identical alignment-scorer results. -/
theorem claim_C10_witness :
    compute_scores wCall id (some wTensor1) wModel =
      compute_scores wCall id (some wTensor2) wModel :=
  claim_C10 wCall id wModel wTensor1 wTensor2 rfl

/-- C1 counterexample: with two target layers, a mask list of the right count
whose first mask is valid and whose second has the wrong length makes `prune`
fail, yet the first layer's mask state and factor weights have already been
mutated (masked and squeezed) — the failed call does not leave every target
layer unchanged. -/
theorem claim_C1_counterexample :
    ((prune wMasksBadLen wModel).2).isSome = true ∧
    (lowRankLayers (prune wMasksBadLen wModel).1).map (fun l => (l.mask, l.factors)) ≠
      (lowRankLayers wModel).map (fun l => (l.mask, l.factors)) := by
  decide

/-- C1 (amended): when `compute_masks()` returns the wrong number of masks,
`prune` aborts before applying any mask — the model keeps the
capacity-initialized layer list unchanged (no mask application, no squeeze).
When the count matches but the mask at position `k` is the first whose length
differs from its layer's rank capacity, `prune` aborts there: the `k` earlier
target layers are already masked and squeezed, while the failing layer and all
later layers are unchanged. -/
theorem claim_C1_amended {W : Type} (f : Model W → List (List Bool)) (m : Model W) :
    ((f (initModel m)).length ≠ (lowRankLayers (initModel m)).length →
      prune f m = (initModel m, some "Computed mask does not match length of model layers")) ∧
    (∀ (ms1 ms2 : List (List Bool)) (mk : List Bool)
        (l1 l2 : List (LowRankLayer W)) (l : LowRankLayer W),
      f (initModel m) = ms1 ++ mk :: ms2 →
      lowRankLayers (initModel m) = l1 ++ l :: l2 →
      ms1.length = l1.length →
      ms2.length = l2.length →
      List.Forall₂ capOk ms1 l1 →
      l.rank_capacity ≠ some mk.length →
      (prune f m).2 = some "Computed mask should be the same length as rank capacity" ∧
      lowRankLayers (prune f m).1 =
        (ms1.zip l1).map (fun p => squeeze_rank_capacity (set_mask p.2 p.1)) ++ l :: l2) := by
  constructor
  · intro h
    simp only [prune]
    rw [if_pos h]
  · intro ms1 ms2 mk l1 l2 l hm hls hlen1 hlen2 hok hbad
    have hlen : ¬((f (initModel m)).length ≠ (lowRankLayers (initModel m)).length) := by
      rw [hm, hls]
      simp [hlen1, hlen2]
    have hfail := applyMasks_fail (initModel m).layers ms1 ms2 mk l1 l2 l hls hlen1 hok hbad
    simp only [prune]
    rw [if_neg hlen, hm, hfail.1]
    exact ⟨rfl, hfail.2⟩

/-- C1 amended witness: on the concrete model, the wrong-length second mask
aborts `prune` with the assert message. -/
theorem claim_C1_amended_witness :
    (prune wMasksBadLen wModel).2 =
      some "Computed mask should be the same length as rank capacity" :=
  ((claim_C1_amended wMasksBadLen wModel).2 [[true, false]] [] [true]
    [wLayerA] [] { wLayerB with rank_capacity := some 3 }
    rfl (by decide) rfl rfl (.cons rfl .nil) (by decide)).1

/-- C3: `prune` completes without a structural mismatch error exactly when the
`compute_masks()` result has one mask per target layer and every mask's length
equals its layer's rank capacity (which, when application reaches that layer,
is still the capacity the layer had when the masks were computed: earlier
squeezes touch only earlier layers); either violation makes it fail. -/
theorem claim_C3 {W : Type} (f : Model W → List (List Bool)) (m : Model W) :
    (prune f m).2 = none ↔
      List.Forall₂ capOk (f (initModel m)) (lowRankLayers (initModel m)) := by
  by_cases hlen : (f (initModel m)).length = (lowRankLayers (initModel m)).length
  · have hiff := applyMasks_snd_none_iff (initModel m).layers (f (initModel m)) hlen
    cases hr : (applyMasks (initModel m).layers (f (initModel m))).2 with
    | some e =>
        have hres : (prune f m).2 = some e := by
          simp only [prune]
          rw [if_neg (by simp [hlen]), hr]
        rw [hres]
        constructor
        · intro hc
          exact absurd hc (Option.some_ne_none e)
        · intro hc
          have h2 := hiff.mpr hc
          rw [hr] at h2
          exact absurd h2 (Option.some_ne_none e)
    | none =>
        have hres : (prune f m).2 = none := by
          simp only [prune]
          rw [if_neg (by simp [hlen]), hr]
        rw [hres]
        exact ⟨fun _ => hiff.mp hr, fun _ => rfl⟩
  · have hres : (prune f m).2 = some "Computed mask does not match length of model layers" := by
      simp only [prune]
      rw [if_pos hlen]
    rw [hres]
    constructor
    · intro hc
      exact absurd hc (Option.some_ne_none _)
    · intro hc
      exact absurd hc.length_eq hlen

/-- C3 witness: a concrete well-matched mask list makes `prune` succeed, via the
backward direction of the equivalence. -/
theorem claim_C3_witness : (prune wMasksOk wModel).2 = none := by
  apply (claim_C3 wMasksOk wModel).mpr
  have h1 : lowRankLayers (initModel wModel) =
      [wLayerA, { wLayerB with rank_capacity := some 3 }] := by decide
  rw [h1]
  exact .cons rfl (.cons rfl .nil)

/-- C4: at the start of `prune`, before `compute_masks` is invoked, every target
layer with unset rank capacity gets it set to `max_rank` and a layer with a set
capacity keeps its value and all other fields; `prune`'s result depends on
`compute_masks` only through its value on that capacity-initialized state, so
scoring operates on the initialized (full, not-yet-pruned) capacities. -/
theorem claim_C4 {W : Type} (f g : Model W → List (List Bool)) (m : Model W) :
    (f (initModel m) = g (initModel m) → prune f m = prune g m) ∧
    (lowRankLayers (initModel m)).length = (lowRankLayers m).length ∧
    ∀ (k : Nat) (s : LowRankLayer W), (lowRankLayers m)[k]? = some s →
      (lowRankLayers (initModel m))[k]? =
        some { s with rank_capacity := some (s.rank_capacity.getD s.max_rank) } := by
  refine ⟨?_, ?_, ?_⟩
  · intro h
    simp only [prune, h]
  · rw [lowRankLayers_initModel, List.length_map]
  · intro k s hk
    rw [lowRankLayers_initModel, List.getElem?_map, hk]
    simp [initCapacity_eq]

/-- C4 witness: two syntactically different `compute_masks` agreeing on the
initialized state give identical prune results, and the concrete unset-capacity
layer is initialized to its `max_rank` while the set one keeps its fields. -/
theorem claim_C4_witness :
    prune wMasksOk wModel = prune wMasksOkAlt wModel ∧
    (lowRankLayers (initModel wModel))[1]? =
      some { wLayerB with
              rank_capacity := some (wLayerB.rank_capacity.getD wLayerB.max_rank) } ∧
    (lowRankLayers (initModel wModel))[0]? =
      some { wLayerA with
              rank_capacity := some (wLayerA.rank_capacity.getD wLayerA.max_rank) } :=
  ⟨(claim_C4 wMasksOk wMasksOkAlt wModel).1 rfl,
    (claim_C4 wMasksOk wMasksOkAlt wModel).2.2 1 wLayerB (by decide),
    (claim_C4 wMasksOk wMasksOkAlt wModel).2.2 0 wLayerA (by decide)⟩

/-- C9: a successful `prune` leaves the model's other attributes untouched,
leaves every non-target (regular) layer in place unchanged, keeps the layer
count and the low-rank positions, and ends with the compiled-state cache
invalidated; and the target layers are mutated only through the mask lifecycle:
each one's final state is exactly its capacity-initialized state with the
computed mask set and `squeeze_rank_capacity` applied (so only `rank_capacity`,
mask state and factor weights change), and in particular every target layer's
`max_rank` is unchanged. -/
theorem claim_C9 {W : Type} (f : Model W → List (List Bool)) (m : Model W)
    (h : (prune f m).2 = none) :
    (prune f m).1.otherAttrs = m.otherAttrs ∧
    (prune f m).1.compileCacheValid = false ∧
    ((prune f m).1.layers).length = m.layers.length ∧
    (∀ (i d : Nat), m.layers[i]? = some (.regular d) →
        ((prune f m).1.layers)[i]? = some (.regular d)) ∧
    (∀ (i : Nat) (s : LowRankLayer W), m.layers[i]? = some (.lowRank s) →
        ∃ s', ((prune f m).1.layers)[i]? = some (.lowRank s')) ∧
    lowRankLayers (prune f m).1 =
      ((f (initModel m)).zip (lowRankLayers (initModel m))).map
        (fun p => squeeze_rank_capacity (set_mask p.2 p.1)) ∧
    List.Forall₂ (fun (lb la : LowRankLayer W) => la.max_rank = lb.max_rank)
      (lowRankLayers m) (lowRankLayers (prune f m).1) := by
  by_cases hlen : (f (initModel m)).length ≠ (lowRankLayers (initModel m)).length
  · exfalso
    have hres : (prune f m).2 =
        some "Computed mask does not match length of model layers" := by
      simp only [prune]
      rw [if_pos hlen]
    rw [h] at hres
    exact Option.some_ne_none _ hres.symm
  · have hr : (applyMasks (initModel m).layers (f (initModel m))).2 = none := by
      cases hx : (applyMasks (initModel m).layers (f (initModel m))).2 with
      | some e =>
          have hres : (prune f m).2 = some e := by
            simp only [prune]
            rw [if_neg hlen, hx]
          rw [hres] at h
          exact absurd h (Option.some_ne_none e)
      | none => rfl
    have hres : prune f m =
        ({ initModel m with
            layers := (applyMasks (initModel m).layers (f (initModel m))).1,
            compileCacheValid := false }, none) := by
      simp only [prune]
      rw [if_neg hlen, hr]
    have hlen' : (f (initModel m)).length = (lowRankLayers (initModel m)).length :=
      not_not.mp hlen
    have hcap : List.Forall₂ capOk (f (initModel m)) (lowRankLayers (initModel m)) :=
      (applyMasks_snd_none_iff (initModel m).layers (f (initModel m)) hlen').mp hr
    rw [hres]
    refine ⟨rfl, rfl, ?_, ?_, ?_, ?_, ?_⟩
    · show ((applyMasks (initModel m).layers (f (initModel m))).1).length = m.layers.length
      rw [applyMasks_fst_length]
      simp [initModel]
    · intro i d hi
      apply applyMasks_regular_at
      show (m.layers.map initLayer)[i]? = _
      rw [List.getElem?_map, hi]
      rfl
    · intro i s hi
      have hmm : (m.layers.map initLayer)[i]? = some (.lowRank (initCapacity s)) := by
        rw [List.getElem?_map, hi]
        simp [initLayer_lowRank]
      exact applyMasks_lowRank_at _ _ i (initCapacity s) hmm
    · exact applyMasks_fst_of_forall₂ _ _ hcap
    · show List.Forall₂ _ (lowRankLayers m)
        (lrLayersOf (applyMasks (initModel m).layers (f (initModel m))).1)
      rw [show lrLayersOf (applyMasks (initModel m).layers (f (initModel m))).1 =
          ((f (initModel m)).zip (lowRankLayers (initModel m))).map
            (fun p => squeeze_rank_capacity (set_mask p.2 p.1)) from
        applyMasks_fst_of_forall₂ _ _ hcap]
      rw [lowRankLayers_initModel]
      apply maxRank_applyAll
      have hle := hcap.length_eq
      rwa [lowRankLayers_initModel, List.length_map] at hle

/-- C5: for every sparsity in `[0, 1]` and any scorer producing one score per
component of each target layer's (initialized) capacity, a LOCAL-scope prune
with the spec's threshold policy succeeds, and every target layer ends with
exactly `rank_capacity_before − floor(sparsity * rank_capacity_before)` live
components, where `rank_capacity_before` is the layer's capacity when the masks
were computed. -/
theorem claim_C5 {W S : Type} [LinearOrder S] (m : Model W)
    (scorer : Model W → List (List S)) (sp : ℚ) (h0 : 0 ≤ sp) (h1 : sp ≤ 1)
    (hs : List.Forall₂ (fun (sc : List S) (l : LowRankLayer W) =>
        l.rank_capacity = some sc.length)
      (scorer (initModel m)) (lowRankLayers (initModel m))) :
    (prune (localComputeMasks scorer sp) m).2 = none ∧
    List.Forall₂ (fun (lb la : LowRankLayer W) =>
        la.rank_capacity =
          some (lb.rank_capacity.getD 0 - ⌊sp * (lb.rank_capacity.getD 0 : ℚ)⌋₊))
      (lowRankLayers (initModel m))
      (lowRankLayers (prune (localComputeMasks scorer sp) m).1) := by
  have hcap : List.Forall₂ capOk (localComputeMasks scorer sp (initModel m))
      (lowRankLayers (initModel m)) := by
    rw [localComputeMasks, List.forall₂_map_left_iff]
    refine hs.imp ?_
    intro sc l hab
    rw [capOk, localMask_length]
    exact hab
  have hlen : (localComputeMasks scorer sp (initModel m)).length =
      (lowRankLayers (initModel m)).length := hcap.length_eq
  have hnone : (applyMasks (initModel m).layers (localComputeMasks scorer sp (initModel m))).2
      = none := (applyMasks_snd_none_iff _ _ hlen).mpr hcap
  have hres : prune (localComputeMasks scorer sp) m =
      ({ initModel m with
          layers := (applyMasks (initModel m).layers
            (localComputeMasks scorer sp (initModel m))).1,
          compileCacheValid := false }, none) := by
    simp only [prune]
    rw [if_neg (by simp [hlen]), hnone]
  have hval : lowRankLayers (prune (localComputeMasks scorer sp) m).1 =
      ((localComputeMasks scorer sp (initModel m)).zip (lowRankLayers (initModel m))).map
        (fun p => squeeze_rank_capacity (set_mask p.2 p.1)) := by
    rw [hres]
    exact applyMasks_fst_of_forall₂ _ _ hcap
  have key : ∀ (scs : List (List S)) (lrs : List (LowRankLayer W)),
      List.Forall₂ (fun (sc : List S) (l : LowRankLayer W) =>
        l.rank_capacity = some sc.length) scs lrs →
      List.Forall₂ (fun (lb la : LowRankLayer W) =>
          la.rank_capacity =
            some (lb.rank_capacity.getD 0 - ⌊sp * (lb.rank_capacity.getD 0 : ℚ)⌋₊))
        lrs (((scs.map (localMask sp)).zip lrs).map
          (fun p => squeeze_rank_capacity (set_mask p.2 p.1))) := by
    intro scs lrs h
    induction h with
    | nil => exact .nil
    | cons hab htail ih =>
        rename_i sc l scs' lrs'
        simp only [List.map_cons, List.zip_cons_cons]
        refine .cons ?_ ih
        show (squeeze_rank_capacity (set_mask l (localMask sp sc))).rank_capacity = _
        rw [squeeze_set_mask_rank_capacity, localMask_count sp h1 sc, hab]
        simp
  refine ⟨by rw [hres], ?_⟩
  rw [hval, localComputeMasks]
  exact key _ _ hs

/-- C5 witness: sparsity 0 on the concrete model succeeds (and prunes nothing). -/
theorem claim_C5_witness :
    (prune (localComputeMasks wScorer (0 : ℚ)) wModel).2 = none := by
  have hforall : List.Forall₂ (fun (sc : List Int) (l : LowRankLayer Int) =>
      l.rank_capacity = some sc.length)
      (wScorer (initModel wModel)) (lowRankLayers (initModel wModel)) := by
    have h1 : wScorer (initModel wModel) = [[0, 1], [0, 1, 2]] := by decide
    have h2 : lowRankLayers (initModel wModel) =
        [wLayerA, { wLayerB with rank_capacity := some 3 }] := by decide
    rw [h1, h2]
    exact .cons rfl (.cons rfl .nil)
  exact (claim_C5 wModel wScorer 0 (le_refl 0) (by norm_num) hforall).1

/-- C9 witness: the concrete successful prune keeps `otherAttrs`, clears the
compile cache, and its target layers are exactly the mask-and-squeeze images of
the respective capacity-initialized layers. -/
theorem claim_C9_witness :
    (prune wMasksOk wModel).1.otherAttrs = wModel.otherAttrs ∧
    (prune wMasksOk wModel).1.compileCacheValid = false ∧
    lowRankLayers (prune wMasksOk wModel).1 =
      ((wMasksOk (initModel wModel)).zip (lowRankLayers (initModel wModel))).map
        (fun p => squeeze_rank_capacity (set_mask p.2 p.1)) :=
  ⟨(claim_C9 wMasksOk wModel (by decide)).1,
    (claim_C9 wMasksOk wModel (by decide)).2.1,
    (claim_C9 wMasksOk wModel (by decide)).2.2.2.2.2.1⟩

/-- C7: with a reference batch present, the alignment scorer returns one score
list per target layer; the list for the layer at position `k` has exactly
`rank_capacity` entries in component-index order, and its entry `i` is
`norm (baseline − ablated)`, where both forward passes run on the fixed probe —
a single all-ones example shaped like one reference example, tagged float64 —
the baseline in the state whose layer `k` carries the all-active mask and the
ablated pass in the same state with only component `i` disabled.  (`norm` is the
external `tf.norm` Euclidean-norm collaborator; the enclosing `prune` guarantees
initialized capacities, the `hcap` hypothesis records that.) -/
theorem claim_C7 {W V O S : Type} [One V] [Sub O]
    (call : Model W → Tensor V → O) (norm : O → S) (xs : Tensor V) (st : Model W)
    (k i : Nat) (hk : k < (lowRankLayers st).length) (hi : i < lrCapacity st k)
    (hcap : ∀ l ∈ lowRankLayers st, (l.rank_capacity).isSome = true) :
    (compute_scores call norm (some xs) st).1 = Except.ok (sweepScores call norm xs st).1 ∧
    ((sweepScores call norm xs st).1).length = (lowRankLayers st).length ∧
    ((sweepScores call norm xs st).1[k]?.map List.length) = some (lrCapacity st k) ∧
    nth2 (sweepScores call norm xs st).1 k i =
      some (norm
        (call (setLRMask (restoredUpTo st k) k (create_mask (lrCapacity st k) [] false))
            (allOnesInput xs)
          - call (setLRMask (restoredUpTo st k) k (create_mask (lrCapacity st k) [i] false))
            (allOnesInput xs))) ∧
    (allOnesInput xs : Tensor V).shape = 1 :: xs.shape.drop 1 ∧
    (allOnesInput xs : Tensor V).dtype = DType.float64 ∧
    (allOnesInput xs : Tensor V).data = List.replicate (xs.shape.drop 1).prod (1 : V) := by
  have hsw := sweepScores_eq call norm xs st
  have hget : (sweepScores call norm xs st).1[k]? =
      some ((scoreLayer call norm xs (restoredUpTo st k) k).1) := by
    rw [hsw]
    rw [List.getElem?_map, List.getElem?_range hk]
    rfl
  have hlayer := scoreLayer_eq call norm xs (restoredUpTo st k) k
  have hcapk : lrCapacity (restoredUpTo st k) k = lrCapacity st k :=
    lrCapacity_restoredUpTo st k k
  refine ⟨rfl, ?_, ?_, ?_, rfl, rfl, rfl⟩
  · rw [hsw]
    simp
  · rw [hget]
    simp only [Option.map_some']
    congr 1
    rw [show (scoreLayer call norm xs (restoredUpTo st k) k).1 =
        ((List.range (lrCapacity (restoredUpTo st k) k)).map _) from by rw [hlayer]]
    rw [List.length_map, List.length_range, hcapk]
  · rw [nth2, hget]
    simp only [Option.getD_some]
    have h1 : (scoreLayer call norm xs (restoredUpTo st k) k).1 =
        (List.range (lrCapacity st k)).map (fun j =>
          norm (call (setLRMask (restoredUpTo st k) k
                (create_mask (lrCapacity st k) [] false)) (allOnesInput xs)
            - call (setLRMask (restoredUpTo st k) k
                (create_mask (lrCapacity st k) [j] false)) (allOnesInput xs))) := by
      rw [hlayer, hcapk]
    rw [h1, List.getElem?_map, List.getElem?_range hi]
    rfl

/-- C7 witness: on the concrete model (capacities initialized), layer 1's score
list has as many entries as that layer's rank capacity, and the whole result is
one list per target layer. -/
theorem claim_C7_witness :
    ((sweepScores wCall id wTensor1 (initModel wModel)).1).length =
      (lowRankLayers (initModel wModel)).length ∧
    ((sweepScores wCall id wTensor1 (initModel wModel)).1[1]?.map List.length) =
      some (lrCapacity (initModel wModel) 1) :=
  ⟨(claim_C7 wCall id wTensor1 (initModel wModel) 1 2 (by decide) (by decide)
      (by decide)).2.1,
    (claim_C7 wCall id wTensor1 (initModel wModel) 1 2 (by decide) (by decide)
      (by decide)).2.2.1⟩

end LowRank
